import Mathlib

/-!
Verification of the screen-model layer of the reovim source tree.

The definitions below are a shallow embedding of the Rust sources:
* `src/elements.rs` — `Cell`, `Line`, `Segment`, `Row` and its operations;
* `src/app.rs` — the redraw-event applier (`AppUpdate::update`) restricted to
  the state it touches (grid registry, grid/window relationships, focused
  grid register, cursor state, dirty flag);
* `src/vimview/widgets.rs` — `VimGrid` and its methods.

Rust `Vec` indexing that can panic is modelled with `Option` (`none` = panic);
machine integers are modelled as `Nat`; `f64` device coordinates are modelled
as `ℚ` (the handlers only add, multiply and floor them).
-/

set_option autoImplicit false

namespace Reovim

/-- Cell of a grid row (src/elements.rs, `struct Cell`). -/
structure Cell where
  text : String
  hl_id : Nat
  double_width : Bool
deriving DecidableEq

/-- One decoded cell of a `grid_line` event (`crate::bridge::GridLineCell`,
as constructed in src/elements.rs; `repeat` is a Lean keyword, hence
`repeat_count`). -/
structure GridLineCell where
  text : String
  highlight_id : Option Nat
  repeat_count : Option Nat
  double_width : Bool
deriving DecidableEq

/-- A decoded `grid_line` event payload (src/elements.rs, `struct Line`). -/
structure Line where
  grid : Nat
  row : Nat
  column_start : Nat
  cells : List GridLineCell

/-- A maximal same-style run of cells (src/elements.rs, `struct Segment`). -/
structure Segment where
  text : String
  hl_id : Nat
  start : Nat
  len : Nat
deriving DecidableEq

/-- A row of a grid (src/elements.rs, `struct Row`). -/
structure Row where
  cells : List Cell
  len : Nat
deriving DecidableEq

/-- The default cell: a single space with style 0 (src/elements.rs,
`Row::empty_cells` loop body). -/
def defaultCell : Cell := ⟨" ", 0, false⟩

/-- src/elements.rs `Row::empty_cells`: `len` default cells. -/
def Row.empty_cells (len : Nat) : List Cell := List.replicate len defaultCell

/-- src/elements.rs `Row::new`. -/
def Row.new (len : Nat) : Row := ⟨Row.empty_cells len, len⟩

/-- src/elements.rs `Row::clear`: `self.cells = Row::empty_cells(self.len)`. -/
def Row.clear (r : Row) : Row := { r with cells := Row.empty_cells r.len }

/-- `Vec::resize_with` on the cell vector: truncate, or extend with default
cells (src/elements.rs `Row::resize` body). -/
def resizeWith (cs : List Cell) (new_size : Nat) : List Cell :=
  if new_size ≤ cs.length then cs.take new_size
  else cs ++ List.replicate (new_size - cs.length) defaultCell

/-- src/elements.rs `Row::resize`: clone-resize the cells, then
`self.len = self.cells.len()`. -/
def Row.resize (r : Row) (new_size : Nat) : Row :=
  let n := resizeWith r.cells new_size
  { cells := n, len := n.length }

/-- The loop `for i in from..to { self.cells[i] = default }` of
src/elements.rs `Row::clear_range`; the second `Nat` is the current index,
the third the number of remaining iterations.  Indexing out of range
panics, modelled by `none`. -/
def clearLoop : List Cell → Nat → Nat → Option (List Cell)
  | cs, _, 0 => some cs
  | cs, i, n + 1 =>
    if i < cs.length then clearLoop (cs.set i defaultCell) (i + 1) n else none

/-- src/elements.rs `Row::clear_range`. -/
def Row.clear_range (r : Row) (f t : Nat) : Option Row :=
  (clearLoop r.cells f (t - f)).map fun cs => { r with cells := cs }

/-- The loop `for (i, cell) in cells { self.cells[at + i] = cell }` of
src/elements.rs `Row::insert_at`. -/
def insertLoop : List Cell → Nat → List Cell → Option (List Cell)
  | cs, _, [] => some cs
  | cs, i, c :: rest =>
    if i < cs.length then insertLoop (cs.set i c) (i + 1) rest else none

/-- src/elements.rs `Row::insert_at`, including its final
`assert_eq!(self.cells.len(), self.len)` (a failing assert panics). -/
def Row.insert_at (r : Row) (at_ : Nat) (cells : List Cell) : Option Row :=
  (insertLoop r.cells at_ cells).bind fun cs =>
    if cs.length = r.len then some { r with cells := cs } else none

/-- `cells.iter().take(cell_start).enumerate().rev().find(|c| c.hl_id != h)`
of src/elements.rs `Row::to_segments`: index of the last cell of `cs` whose
style differs from `h`. -/
def findLastDiff : List Cell → Nat → Option Nat
  | [], _ => none
  | c :: cs, h =>
    match findLastDiff cs h with
    | some i => some (i + 1)
    | none => if c.hl_id ≠ h then some 0 else none

/-- One iteration body of the forward scan of src/elements.rs
`Row::to_segments`: merge the cell into the last segment when the styles
match, otherwise push a fresh one-cell segment starting at `start`. -/
def pushCell (segs : List Segment) (c : Cell) (start : Nat) : List Segment :=
  match segs.getLast? with
  | some seg =>
    if seg.hl_id = c.hl_id then
      segs.dropLast ++ [{ seg with text := seg.text ++ c.text, len := seg.len + 1 }]
    else segs ++ [⟨c.text, c.hl_id, start, 1⟩]
  | none => segs ++ [⟨c.text, c.hl_id, start, 1⟩]

/-- The forward scan `for (i, cell) in cells.iter().enumerate().skip(base)`
of src/elements.rs `Row::to_segments`, breaking as soon as `i > e`.  The
source's mutable `start` counter is incremented exactly once per processed
cell and starts at the loop's first index, so it always equals the running
index `i` and is not carried separately. -/
def segLoop : List Cell → Nat → Nat → List Segment → List Segment
  | [], _, _, segs => segs
  | c :: cs, i, e, segs =>
    if i > e then segs
    else segLoop cs (i + 1) e (pushCell segs c i)

/-- The backward-extended start index (the source's `base` local) of
src/elements.rs `Row::to_segments`: one past the last cell before
`cell_start` whose style differs from `base_hl`, or 0 when they all
match. -/
def baseIdx (cs : List Cell) (cell_start : Nat) (base_hl : Nat) : Nat :=
  match findLastDiff (cs.take cell_start) base_hl with
  | some i => i + 1
  | none => 0

/-- src/elements.rs `Row::to_segments(cell_start, end)`.  The source indexes
`self.cells[cell_start]` unconditionally, which panics out of range
(`none`); then extends backward with the reverse `find` (`baseIdx`), then
forward-scans from `base`. -/
def Row.to_segments (r : Row) (cell_start e : Nat) : Option (List Segment) :=
  match r.cells[cell_start]? with
  | none => none
  | some c0 =>
    some (segLoop (r.cells.drop (baseIdx r.cells cell_start c0.hl_id))
      (baseIdx r.cells cell_start c0.hl_id) e [])

/-- The inner loop `for r in 0..repeat { self.cells[offset + r] = cell }` of
src/elements.rs `Row::replace`. -/
def writeRepeat : List Cell → Nat → Nat → Cell → Option (List Cell)
  | cs, _, 0, _ => some cs
  | cs, offset, n + 1, c =>
    if offset < cs.length then writeRepeat (cs.set offset c) (offset + 1) n c
    else none

/-- The cell written for one `grid_line` item, given its (unwrapped)
highlight id (src/elements.rs `Row::replace` loop body). -/
def cellOfItem (item : GridLineCell) (hl : Nat) : Cell :=
  ⟨item.text, hl, item.double_width⟩

/-- The outer write loop of src/elements.rs `Row::replace`: each item
unwraps its highlight id (panicking on `None`), writes `repeat` (default 1)
copies, and advances `offset` by `repeat`.  Returns the written cells and
the final offset. -/
def writeCells : List Cell → Nat → List GridLineCell → Option (List Cell × Nat)
  | cs, offset, [] => some (cs, offset)
  | cs, offset, item :: rest =>
    match item.highlight_id with
    | none => none
    | some hl =>
      match writeRepeat cs offset (item.repeat_count.getD 1) (cellOfItem item hl) with
      | none => none
      | some cs' => writeCells cs' (offset + item.repeat_count.getD 1) rest

/-- src/elements.rs `Row::replace`: compute `range_start` from the segment
covering `col_start`, run the write loop, check the
`assert_eq!(self.cells.len(), self.len)`, and return
`to_segments(range_start, offset)` together with the updated row. -/
def Row.replace (r : Row) (line : Line) : Option (Row × List Segment) :=
  match r.to_segments line.column_start line.column_start with
  | none => none
  | some segs0 =>
    match writeCells r.cells line.column_start line.cells with
    | none => none
    | some (cells', offset) =>
      if cells'.length = r.len then
        match Row.to_segments ⟨cells', r.len⟩
            (match segs0.head? with | some seg => seg.start | none => 0)
            offset with
        | none => none
        | some segs => some (⟨cells', r.len⟩, segs)
      else none

/-! ## The application state model (src/app.rs, src/vimview/widgets.rs) -/

/-- Cell metrics.  Modelled from the spec: `metrics.rs` is absent from src/;
§4.4/§4.5 use only the cell width and the cell height, both device-unit
scalars. -/
structure Metrics where
  width : ℚ
  height : ℚ
deriving DecidableEq

/-- Modelled from the spec: `vimview/textbuf.rs` is absent from src/.  Per §3
a grid's buffer is an ordered sequence of `Row`s; `TextBuf::new(rows, cols)`
(called by `VimGrid::new`) creates `rows` default rows of length `cols`. -/
def TextBuf.new (rows cols : Nat) : List Row := List.replicate rows (Row.new cols)

/-- Modelled from the spec: `TextBuf::cell(row, col)` — §4.5 `goto` "looks up
the live cell at (row,col) in the named grid's buffer", absent when out of
range. -/
def TextBuf.cell (buf : List Row) (row col : Nat) : Option Cell :=
  (buf[row]?).bind fun r => r.cells[col]?

/-- Modelled from the spec: `TextBuf::resize(rows, cols)` — §4.3 `resize`
"reallocates every Row to the new width and the row collection to the new
height, preserving overlapping content (top-left aligned), matching
Row.resize semantics per row plus row-count adjustment". -/
def TextBuf.resize (buf : List Row) (rows cols : Nat) : List Row :=
  let resized := buf.map (fun r => r.resize cols)
  if rows ≤ resized.length then resized.take rows
  else resized ++ List.replicate (rows - resized.length) (Row.new cols)

/-- src/vimview/widgets.rs `struct VimGrid`, restricted to the fields the
redraw applier reads or writes (the pango/highlight handles carry no model
state). -/
structure VimGrid where
  win : Nat
  grid : Nat
  pos : ℚ × ℚ
  move_to : Option (ℚ × ℚ)
  width : Nat
  height : Nat
  is_float : Bool
  focusable : Bool
  textbuf : List Row
  visible : Bool
deriving DecidableEq

/-- src/vimview/widgets.rs `VimGrid::new` (its `TextBuf::new(rect.height,
rect.width)` call is the spec-modelled `TextBuf.new`). -/
def VimGrid.new (id winid : Nat) (pos : ℚ × ℚ) (width height : Nat) : VimGrid :=
  { win := winid, grid := id, pos := pos, move_to := none,
    width := width, height := height, is_float := false, focusable := true,
    textbuf := TextBuf.new height width, visible := true }

/-- src/vimview/widgets.rs `VimGrid::hide`. -/
def VimGrid.hide (g : VimGrid) : VimGrid := { g with visible := false }

/-- src/vimview/widgets.rs `VimGrid::show`. -/
def VimGrid.show (g : VimGrid) : VimGrid := { g with visible := true }

/-- src/vimview/widgets.rs `VimGrid::resize` (its `textbuf.resize(height,
width)` call is the spec-modelled `TextBuf.resize`). -/
def VimGrid.resize (g : VimGrid) (width height : Nat) : VimGrid :=
  { g with width := width, height := height,
           textbuf := TextBuf.resize g.textbuf height width }

/-- src/vimview/widgets.rs `VimGrid::set_pos`. -/
def VimGrid.set_pos (g : VimGrid) (x y : ℚ) : VimGrid :=
  { g with pos := (x, y), move_to := some (x, y) }

/-- src/vimview/widgets.rs `VimGrid::set_is_float`. -/
def VimGrid.set_is_float (g : VimGrid) (b : Bool) : VimGrid := { g with is_float := b }

/-- src/vimview/widgets.rs `VimGrid::set_focusable`. -/
def VimGrid.set_focusable (g : VimGrid) (b : Bool) : VimGrid := { g with focusable := b }

/-- Lookup in a keyed map (`FactoryMap` / `FxHashMap`), modelled as an
association list with unique keys. -/
def alookup {α : Type} : List (Nat × α) → Nat → Option α
  | [], _ => none
  | (k', v) :: rest, k => if k' = k then some v else alookup rest k

/-- Insert-or-replace in a keyed map. -/
def ainsert {α : Type} : List (Nat × α) → Nat → α → List (Nat × α)
  | [], k, v => [(k, v)]
  | (k', v') :: rest, k, v =>
    if k' = k then (k, v) :: rest else (k', v') :: ainsert rest k v

/-- Key removal from a keyed map (`HashMap::remove` / `FactoryMap::remove`,
a no-op when the key is absent). -/
def aerase {α : Type} : List (Nat × α) → Nat → List (Nat × α)
  | [], _ => []
  | (k', v) :: rest, k =>
    if k' = k then aerase rest k else (k', v) :: aerase rest k

/-- `crate::bridge::WindowAnchor` as matched in src/app.rs. -/
inductive WindowAnchor where
  | NorthWest
  | NorthEast
  | SouthWest
  | SouthEast
deriving DecidableEq

/-- The slice of src/app.rs `AppModel` touched by the verified redraw-event
arms: the grid registry (`vgrids`), the grid→window associations
(`relationships`, storing each `GridWindow`'s `winid`), the `focused`
atomic register, the cursor state and the `cursor_redraw` dirty flag.
`cursor_pos`/`cursor_cell` model the `Cursor::set_pos`/`set_cell` calls
(cursor.rs is absent from src/; modelled from the spec's `CursorState`,
which stores the position and the shown cell). -/
structure AppState where
  vgrids : List (Nat × VimGrid)
  relationships : List (Nat × Nat)
  focused : Nat
  cursor_pos : ℚ × ℚ
  cursor_cell : Option Cell
  cursor_redraw : Bool
deriving DecidableEq

/-- src/app.rs `RedrawEvent::Resize` arm: store `grid` into `focused`, then
resize in place when the grid exists, else create it at the origin with the
sentinel window id 0. -/
def updateResize (s : AppState) (grid width height : Nat) : AppState :=
  let s := { s with focused := grid }
  match alookup s.vgrids grid with
  | some vg => { s with vgrids := ainsert s.vgrids grid (vg.resize width height) }
  | none =>
    { s with
      vgrids := ainsert s.vgrids grid (VimGrid.new grid 0 (0, 0) width height),
      relationships := ainsert s.relationships grid 0 }

/-- src/app.rs `RedrawEvent::WindowPosition` arm.  The blocking
`window.get_number()` resolution is passed in as `winidRes` (`none` = failed
query, which the source `.unwrap()`s — a panic).  On success `focused` is
stored, the cell position is converted and floored, and the grid is either
created or resized/moved/shown with its association overwritten (the
`relationships.get_mut(&grid).unwrap()` panics when the live grid has no
association record). -/
def updateWindowPosition (s : AppState) (grid : Nat) (winidRes : Option Nat)
    (start_row start_column width height : Nat) (metrics : Metrics) :
    Option AppState :=
  match winidRes with
  | none => none
  | some winid =>
    let s := { s with focused := grid }
    let x : ℚ := (start_column : ℚ) * metrics.width
    let y : ℚ := (start_row : ℚ) * metrics.height
    match alookup s.vgrids grid with
    | none =>
      some { s with
        vgrids := ainsert s.vgrids grid
          (VimGrid.new grid winid ((⌊x⌋ : ℚ), (⌊y⌋ : ℚ)) width height),
        relationships := ainsert s.relationships grid winid }
    | some vg =>
      let vg := (vg.resize width height).set_pos (⌊x⌋ : ℚ) (⌊y⌋ : ℚ)
      match alookup s.relationships grid with
      | none => none
      | some _ =>
        some { s with
          vgrids := ainsert s.vgrids grid vg.show,
          relationships := ainsert s.relationships grid winid }

/-- src/app.rs `RedrawEvent::WindowHide` arm:
`focused.compare_exchange(grid, 1, …)` then
`vgrids.get_mut(grid).unwrap().hide()` (panic on an unknown grid). -/
def updateWindowHide (s : AppState) (grid : Nat) : Option AppState :=
  let s := if s.focused = grid then { s with focused := 1 } else s
  match alookup s.vgrids grid with
  | none => none
  | some vg => some { s with vgrids := ainsert s.vgrids grid vg.hide }

/-- src/app.rs `RedrawEvent::WindowClose` arm:
`focused.compare_exchange(grid, 1, …)`, then remove the relationship and the
grid. -/
def updateWindowClose (s : AppState) (grid : Nat) : AppState :=
  let s := if s.focused = grid then { s with focused := 1 } else s
  { s with relationships := aerase s.relationships grid,
           vgrids := aerase s.vgrids grid }

/-- src/app.rs `RedrawEvent::Destroy` arm — textually identical to the
`WindowClose` arm. -/
def updateDestroy (s : AppState) (grid : Nat) : AppState :=
  let s := if s.focused = grid then { s with focused := 1 } else s
  { s with relationships := aerase s.relationships grid,
           vgrids := aerase s.vgrids grid }

/-- src/app.rs `RedrawEvent::CursorGoto` arm.  `vgrids.get(grid).unwrap()`
panics on an unknown grid (`none`); otherwise, when the addressed cell
exists the cursor position and shown cell are updated, and in every
non-panicking path `cursor_redraw` is stored `true`. -/
def updateCursorGoto (s : AppState) (grid row column : Nat) (metrics : Metrics) :
    Option AppState :=
  match alookup s.vgrids grid with
  | none => none
  | some vgrid =>
    let s :=
      match TextBuf.cell vgrid.textbuf row column with
      | some cell =>
        let x := metrics.width * (column : ℚ) + vgrid.pos.1
        let y := metrics.height * (row : ℚ) + vgrid.pos.2
        { s with cursor_pos := (x, y), cursor_cell := some cell }
      | none => s
    some { s with cursor_redraw := true }

/-- src/app.rs `RedrawEvent::WindowFloatPosition` arm.  Both
`vgrids.get(anchor_grid).unwrap()` and `vgrids.get_mut(grid).unwrap()` panic
when the grid is absent (`none`). -/
def updateWindowFloatPosition (s : AppState) (grid : Nat)
    (anchor : WindowAnchor) (anchor_grid : Nat) (anchor_row anchor_column : ℚ)
    (focusable : Bool) (metrics : Metrics) : Option AppState :=
  match alookup s.vgrids anchor_grid with
  | none => none
  | some base =>
    let left := base.pos.1
    let top := base.pos.2
    match alookup s.vgrids grid with
    | none => none
    | some vgrid =>
      let cr : ℚ × ℚ :=
        match anchor with
        | .NorthWest => (anchor_column, anchor_row)
        | .NorthEast => (anchor_column - (vgrid.width : ℚ), anchor_row)
        | .SouthWest => (anchor_column, anchor_row - (vgrid.height : ℚ))
        | .SouthEast =>
          (anchor_column - (vgrid.width : ℚ), anchor_row - (vgrid.height : ℚ))
      let x := cr.1 * metrics.width
      let y := cr.2 * metrics.height
      let vgrid :=
        ((vgrid.set_pos (left + x) (top + y)).set_is_float true).set_focusable
          focusable
      some { s with vgrids := ainsert s.vgrids grid vgrid }

/-! ## Association-map lemmas -/

theorem alookup_ainsert_self {α : Type} (m : List (Nat × α)) (k : Nat) (v : α) :
    alookup (ainsert m k v) k = some v := by
  induction m with
  | nil => simp [ainsert, alookup]
  | cons p rest ih =>
    obtain ⟨k', v'⟩ := p
    by_cases h : k' = k <;> simp [ainsert, alookup, h, ih]

theorem alookup_ainsert_ne {α : Type} (m : List (Nat × α)) (k j : Nat) (v : α)
    (h : j ≠ k) : alookup (ainsert m k v) j = alookup m j := by
  induction m with
  | nil => simp [ainsert, alookup, Ne.symm h]
  | cons p rest ih =>
    obtain ⟨k', v'⟩ := p
    by_cases hk : k' = k
    · subst hk
      simp [ainsert, alookup, Ne.symm h]
    · simp [ainsert, alookup, hk, ih]

theorem alookup_aerase_self {α : Type} (m : List (Nat × α)) (k : Nat) :
    alookup (aerase m k) k = none := by
  induction m with
  | nil => simp [aerase, alookup]
  | cons p rest ih =>
    obtain ⟨k', v'⟩ := p
    by_cases h : k' = k <;> simp [aerase, alookup, h, ih]

theorem alookup_aerase_ne {α : Type} (m : List (Nat × α)) (k j : Nat)
    (h : j ≠ k) : alookup (aerase m k) j = alookup m j := by
  induction m with
  | nil => simp [aerase, alookup]
  | cons p rest ih =>
    obtain ⟨k', v'⟩ := p
    by_cases hk : k' = k
    · subst hk
      simp [aerase, alookup, Ne.symm h, ih]
    · simp [aerase, alookup, hk, ih]

/-! ## Claim C5 — Resize lifecycle -/

/-- Claim C5: a `Resize` event naming an absent grid id creates a live grid
at origin `(0,0)` with the sentinel window association (window id 0) and the
event's width and height; a `Resize` event naming a live grid id resizes it
in place — no new grid is created and its window association is not
replaced. -/
theorem C5_resize_lifecycle :
    (∀ (s : AppState) (grid w h : Nat), alookup s.vgrids grid = none →
      ∃ vg, alookup (updateResize s grid w h).vgrids grid = some vg ∧
        vg.pos = (0, 0) ∧ vg.win = 0 ∧ vg.width = w ∧ vg.height = h ∧
        vg.visible = true ∧
        alookup (updateResize s grid w h).relationships grid = some 0) ∧
    (∀ (s : AppState) (grid w h : Nat) (vg : VimGrid),
      alookup s.vgrids grid = some vg →
      alookup (updateResize s grid w h).vgrids grid = some (vg.resize w h) ∧
      (∀ j, ((alookup (updateResize s grid w h).vgrids j).isSome ↔
        (alookup s.vgrids j).isSome)) ∧
      (updateResize s grid w h).relationships = s.relationships) := by
  constructor
  · intro s grid w h habs
    refine ⟨VimGrid.new grid 0 (0, 0) w h, ?_, rfl, rfl, rfl, rfl, rfl, ?_⟩ <;>
      simp [updateResize, habs, alookup_ainsert_self]
  · intro s grid w h vg hlive
    refine ⟨?_, ?_, ?_⟩
    · simp [updateResize, hlive, alookup_ainsert_self]
    · intro j
      by_cases hj : j = grid
      · subst hj
        simp [updateResize, hlive, alookup_ainsert_self]
      · simp [updateResize, hlive, alookup_ainsert_ne _ _ _ _ hj]
    · simp [updateResize, hlive]

/-- Witness for C5 at concrete inputs: grid 3 absent from the empty state is
created at the origin with window id 0 and size 4×2; grid 3 live in the
resulting state is resized in place with the relationships untouched. -/
theorem C5_resize_lifecycle_witness :
    (∃ vg, alookup (updateResize ⟨[], [], 1, (0, 0), none, false⟩ 3 4 2).vgrids 3 =
        some vg ∧
      vg.pos = (0, 0) ∧ vg.win = 0 ∧ vg.width = 4 ∧ vg.height = 2 ∧
      vg.visible = true ∧
      alookup (updateResize ⟨[], [], 1, (0, 0), none, false⟩ 3 4 2).relationships 3 =
        some 0) ∧
    (alookup (updateResize (updateResize ⟨[], [], 1, (0, 0), none, false⟩ 3 4 2) 3 6 5).vgrids 3 =
      some ((VimGrid.new 3 0 (0, 0) 4 2).resize 6 5)) := by
  constructor
  · exact C5_resize_lifecycle.1 ⟨[], [], 1, (0, 0), none, false⟩ 3 4 2 rfl
  · exact (C5_resize_lifecycle.2 (updateResize ⟨[], [], 1, (0, 0), none, false⟩ 3 4 2)
      3 6 5 (VimGrid.new 3 0 (0, 0) 4 2) (by decide)).1

/-! ## Claim C6 — WindowClose / Destroy -/

/-- Claim C6: `WindowClose` and `Destroy` on a live grid remove both the grid
and its window-association record, and reset the focused grid id to the
sentinel 1 exactly when the removed grid was focused. -/
theorem C6_close_destroy (s : AppState) (grid : Nat)
    (_hlive : (alookup s.vgrids grid).isSome) :
    (alookup (updateWindowClose s grid).vgrids grid = none ∧
     alookup (updateWindowClose s grid).relationships grid = none ∧
     (updateWindowClose s grid).focused =
       (if s.focused = grid then 1 else s.focused)) ∧
    (alookup (updateDestroy s grid).vgrids grid = none ∧
     alookup (updateDestroy s grid).relationships grid = none ∧
     (updateDestroy s grid).focused =
       (if s.focused = grid then 1 else s.focused)) := by
  constructor <;>
    refine ⟨?_, ?_, ?_⟩ <;>
    by_cases h : s.focused = grid <;>
    simp [updateWindowClose, updateDestroy, h, alookup_aerase_self]

/-- Witness for C6: closing/destroying the live, focused grid 4 removes it
and reverts focus to 1. -/
theorem C6_close_destroy_witness :
    (alookup (updateWindowClose
        ⟨[(4, VimGrid.new 4 0 (0, 0) 2 1)], [(4, 0)], 4, (0, 0), none, false⟩ 4).vgrids 4 =
       none ∧
     alookup (updateWindowClose
        ⟨[(4, VimGrid.new 4 0 (0, 0) 2 1)], [(4, 0)], 4, (0, 0), none, false⟩ 4).relationships 4 =
       none ∧
     (updateWindowClose
        ⟨[(4, VimGrid.new 4 0 (0, 0) 2 1)], [(4, 0)], 4, (0, 0), none, false⟩ 4).focused =
       (if (4 : Nat) = 4 then 1 else 4)) ∧
    (alookup (updateDestroy
        ⟨[(4, VimGrid.new 4 0 (0, 0) 2 1)], [(4, 0)], 4, (0, 0), none, false⟩ 4).vgrids 4 =
       none ∧
     alookup (updateDestroy
        ⟨[(4, VimGrid.new 4 0 (0, 0) 2 1)], [(4, 0)], 4, (0, 0), none, false⟩ 4).relationships 4 =
       none ∧
     (updateDestroy
        ⟨[(4, VimGrid.new 4 0 (0, 0) 2 1)], [(4, 0)], 4, (0, 0), none, false⟩ 4).focused =
       (if (4 : Nat) = 4 then 1 else 4)) :=
  C6_close_destroy
    ⟨[(4, VimGrid.new 4 0 (0, 0) 2 1)], [(4, 0)], 4, (0, 0), none, false⟩ 4
    (by decide)

/-! ## Claim C10 — Resize / WindowPosition always store the focused id -/

/-- Claim C10: every `Resize` event, and every `WindowPosition` event whose
window-number query succeeds, overwrites the focused-grid register with the
event's grid id, with no condition on whether the grid already exists. -/
theorem C10_focused_store :
    (∀ (s : AppState) (grid w h : Nat),
      (updateResize s grid w h).focused = grid) ∧
    (∀ (s : AppState) (grid winid r c w h : Nat) (m : Metrics) (s' : AppState),
      updateWindowPosition s grid (some winid) r c w h m = some s' →
      s'.focused = grid) := by
  constructor
  · intro s grid w h
    unfold updateResize
    cases halt : alookup s.vgrids grid <;> simp [halt]
  · intro s grid winid r c w h m s' hs
    unfold updateWindowPosition at hs
    cases halt : alookup s.vgrids grid with
    | none =>
      simp only [halt] at hs
      injection hs with hx
      rw [← hx]
    | some vg =>
      simp only [halt] at hs
      cases hrel : alookup s.relationships grid with
      | none => simp [hrel] at hs
      | some w0 =>
        simp only [hrel] at hs
        injection hs with hx
        rw [← hx]

/-- Witness for C10's `WindowPosition` part at a concrete input: an absent
grid 9 in the empty state still ends up focused. -/
theorem C10_focused_store_witness :
    (updateResize ⟨[], [], 1, (0, 0), none, false⟩ 8 4 2).focused = 8 ∧
    ∃ s', updateWindowPosition ⟨[], [], 1, (0, 0), none, false⟩ 9 (some 2) 0 0 4 2 ⟨8, 16⟩ =
        some s' ∧ s'.focused = 9 := by
  refine ⟨C10_focused_store.1 ⟨[], [], 1, (0, 0), none, false⟩ 8 4 2, ?_⟩
  cases hs : updateWindowPosition ⟨[], [], 1, (0, 0), none, false⟩ 9 (some 2) 0 0 4 2 ⟨8, 16⟩ with
  | none => exact absurd hs (by decide)
  | some s' => exact ⟨s', rfl, C10_focused_store.2 _ 9 2 0 0 4 2 ⟨8, 16⟩ s' hs⟩

/-! ## Claim C9 — WindowHide (corrected) -/

/-- Counterexample to claim C9 as stated: hiding the live, focused grid 7
changes registry-level state beyond the grid's visibility — the focused-grid
register moves from 7 to the sentinel 1, so it is not left unchanged. -/
theorem C9_window_hide_counterexample :
    ((updateWindowHide
        ⟨[(7, VimGrid.new 7 0 (0, 0) 2 1)], [(7, 0)], 7, (0, 0), none, false⟩ 7).map
      AppState.focused) = some 1 ∧ (1 : Nat) ≠ 7 := by
  constructor <;> decide

/-- Claim C9 (amended): `WindowHide` on a live grid sets that grid's
visibility to false; the grid's buffer, position, size, flags, window
association, the other grids and the cursor state are unchanged — but the
focused-grid register is reset to the sentinel 1 when it equalled the hidden
grid id (and is unchanged otherwise). -/
theorem C9_window_hide (s : AppState) (grid : Nat) (vg : VimGrid)
    (hlive : alookup s.vgrids grid = some vg) :
    ∃ s', updateWindowHide s grid = some s' ∧
      (∃ vg', alookup s'.vgrids grid = some vg' ∧
        vg'.visible = false ∧ vg'.textbuf = vg.textbuf ∧ vg'.pos = vg.pos ∧
        vg'.width = vg.width ∧ vg'.height = vg.height ∧ vg'.win = vg.win ∧
        vg'.is_float = vg.is_float ∧ vg'.focusable = vg.focusable ∧
        vg'.move_to = vg.move_to) ∧
      (∀ j, j ≠ grid → alookup s'.vgrids j = alookup s.vgrids j) ∧
      s'.relationships = s.relationships ∧
      s'.cursor_pos = s.cursor_pos ∧ s'.cursor_cell = s.cursor_cell ∧
      s'.cursor_redraw = s.cursor_redraw ∧
      s'.focused = (if s.focused = grid then 1 else s.focused) := by
  have hres : updateWindowHide s grid =
      some { s with focused := (if s.focused = grid then 1 else s.focused),
                    vgrids := ainsert s.vgrids grid vg.hide } := by
    by_cases h : s.focused = grid <;> simp [updateWindowHide, h, hlive]
  refine ⟨_, hres,
    ⟨vg.hide, alookup_ainsert_self _ _ _, rfl, rfl, rfl, rfl, rfl, rfl, rfl,
      rfl, rfl⟩,
    fun j hj => alookup_ainsert_ne _ _ _ _ hj, rfl, rfl, rfl, rfl, rfl⟩

/-- Witness for the amended C9 at a concrete input: hiding the live, focused
grid 7 succeeds, turns its visibility off and resets focus to 1. -/
theorem C9_window_hide_witness :
    ∃ s', updateWindowHide
        ⟨[(7, VimGrid.new 7 0 (0, 0) 2 1)], [(7, 0)], 7, (0, 0), none, false⟩ 7 =
        some s' ∧
      (∃ vg', alookup s'.vgrids 7 = some vg' ∧ vg'.visible = false) ∧
      s'.focused = 1 := by
  obtain ⟨s', hs, ⟨vg', hl, hvis, _⟩, _, _, _, _, _, hf⟩ :=
    C9_window_hide ⟨[(7, VimGrid.new 7 0 (0, 0) 2 1)], [(7, 0)], 7, (0, 0), none, false⟩
      7 (VimGrid.new 7 0 (0, 0) 2 1) (by decide)
  exact ⟨s', hs, ⟨vg', hl, hvis⟩, by rw [hf]; decide⟩

/-! ## Claim C3 — CursorGoto (corrected) -/

/-- Counterexample to claim C3 as stated: a `CursorGoto` naming a grid id
unknown to the registry panics (`none` models the `.unwrap()` panic) instead
of skipping with unchanged state, and a `CursorGoto` addressing an
out-of-range cell of a live grid has more than a diagnostic as its effect —
it stores `true` into the `cursor_redraw` dirty flag, which was `false`. -/
theorem C3_cursor_goto_counterexample :
    updateCursorGoto ⟨[], [], 1, (0, 0), none, false⟩ 5 0 0 ⟨8, 16⟩ = none ∧
    ((updateCursorGoto
        ⟨[(1, VimGrid.new 1 0 (0, 0) 2 1)], [(1, 0)], 1, (0, 0), none, false⟩
        1 9 9 ⟨8, 16⟩).map AppState.cursor_redraw) = some true := by
  constructor <;> decide

/-- Claim C3 (amended): a `CursorGoto` naming a grid id unknown to the
registry panics; on a live grid it never panics, and when the addressed cell
does not exist the position update is skipped (cursor position and shown
cell unchanged, registry and focus unchanged) — but the `cursor_redraw`
dirty flag is stored `true` in every non-panicking path, so the log line is
not the only effect.  When the cell exists, the stored cursor position
becomes the grid's device position plus (column × cell width, row × cell
height) and the cell is stored as the shown cell. -/
theorem C3_cursor_goto :
    (∀ (s : AppState) (grid row col : Nat) (m : Metrics),
      alookup s.vgrids grid = none →
      updateCursorGoto s grid row col m = none) ∧
    (∀ (s : AppState) (grid row col : Nat) (m : Metrics) (vgrid : VimGrid),
      alookup s.vgrids grid = some vgrid →
      ∃ s', updateCursorGoto s grid row col m = some s' ∧
        s'.vgrids = s.vgrids ∧ s'.relationships = s.relationships ∧
        s'.focused = s.focused ∧ s'.cursor_redraw = true ∧
        (∀ cell, TextBuf.cell vgrid.textbuf row col = some cell →
          s'.cursor_pos = (m.width * (col : ℚ) + vgrid.pos.1,
                           m.height * (row : ℚ) + vgrid.pos.2) ∧
          s'.cursor_cell = some cell) ∧
        (TextBuf.cell vgrid.textbuf row col = none →
          s'.cursor_pos = s.cursor_pos ∧ s'.cursor_cell = s.cursor_cell)) := by
  constructor
  · intro s grid row col m h
    simp [updateCursorGoto, h]
  · intro s grid row col m vgrid h
    cases hcell : TextBuf.cell vgrid.textbuf row col with
    | none =>
      refine ⟨{ s with cursor_redraw := true }, ?_, rfl, rfl, rfl, rfl, ?_,
        fun _ => ⟨rfl, rfl⟩⟩
      · simp [updateCursorGoto, h, hcell]
      · intro cell hc
        cases hc
    | some cell0 =>
      refine ⟨{ s with
          cursor_pos := (m.width * (col : ℚ) + vgrid.pos.1,
                         m.height * (row : ℚ) + vgrid.pos.2),
          cursor_cell := some cell0, cursor_redraw := true }, ?_, rfl, rfl,
        rfl, rfl, ?_, ?_⟩
      · simp [updateCursorGoto, h, hcell]
      · intro cell hc
        injection hc with hc
        subst hc
        exact ⟨rfl, rfl⟩
      · intro hc
        cases hc

/-- Witness for the amended C3 at a concrete input: on a 2×1 grid at device
position (100, 50) with 8×16 metrics, `CursorGoto` to row 0 column 1 moves
the cursor to (108, 50) and stores the addressed (default) cell. -/
theorem C3_cursor_goto_witness :
    ∃ s', updateCursorGoto
        ⟨[(1, VimGrid.new 1 0 (100, 50) 2 1)], [(1, 0)], 1, (0, 0), none, false⟩
        1 0 1 ⟨8, 16⟩ = some s' ∧
      s'.cursor_pos = (108, 50) ∧ s'.cursor_cell = some defaultCell ∧
      s'.cursor_redraw = true := by
  obtain ⟨s', hs, _, _, _, hrd, hcell, _⟩ :=
    C3_cursor_goto.2
      ⟨[(1, VimGrid.new 1 0 (100, 50) 2 1)], [(1, 0)], 1, (0, 0), none, false⟩
      1 0 1 ⟨8, 16⟩ (VimGrid.new 1 0 (100, 50) 2 1) (by decide)
  obtain ⟨hpos, hc⟩ := hcell defaultCell (by decide)
  refine ⟨s', hs, ?_, hc, hrd⟩
  rw [hpos]
  norm_num [VimGrid.new]

/-! ## Claim C4 — WindowFloatPosition -/

/-- Claim C4: a `WindowFloatPosition` event whose anchor grid (and float
grid) is live moves the float grid to the anchor grid's device position plus
the cell offset converted by the cell metrics, the offset being
`(col, row)` for NorthWest, `(col − width, row)` for NorthEast,
`(col, row − height)` for SouthWest and both subtractions for SouthEast,
with width/height the float grid's own cell size; it also sets `is_float`
and takes `focusable` from the event. -/
theorem C4_float_position (s : AppState) (grid : Nat) (anchor : WindowAnchor)
    (anchor_grid : Nat) (anchor_row anchor_column : ℚ) (focusable : Bool)
    (m : Metrics) (base vgrid : VimGrid)
    (hanchor : alookup s.vgrids anchor_grid = some base)
    (hgrid : alookup s.vgrids grid = some vgrid) :
    ∃ s' vg', updateWindowFloatPosition s grid anchor anchor_grid anchor_row
        anchor_column focusable m = some s' ∧
      alookup s'.vgrids grid = some vg' ∧
      vg'.pos = (base.pos.1 +
          (match anchor with
            | WindowAnchor.NorthWest => anchor_column
            | WindowAnchor.NorthEast => anchor_column - (vgrid.width : ℚ)
            | WindowAnchor.SouthWest => anchor_column
            | WindowAnchor.SouthEast => anchor_column - (vgrid.width : ℚ)) *
            m.width,
        base.pos.2 +
          (match anchor with
            | WindowAnchor.NorthWest => anchor_row
            | WindowAnchor.NorthEast => anchor_row
            | WindowAnchor.SouthWest => anchor_row - (vgrid.height : ℚ)
            | WindowAnchor.SouthEast => anchor_row - (vgrid.height : ℚ)) *
            m.height) ∧
      vg'.is_float = true ∧ vg'.focusable = focusable := by
  refine ⟨{ s with vgrids := (ainsert s.vgrids grid
      (((vgrid.set_pos
          (base.pos.1 + (match anchor with
            | WindowAnchor.NorthWest => anchor_column
            | WindowAnchor.NorthEast => anchor_column - (vgrid.width : ℚ)
            | WindowAnchor.SouthWest => anchor_column
            | WindowAnchor.SouthEast => anchor_column - (vgrid.width : ℚ)) *
            m.width)
          (base.pos.2 + (match anchor with
            | WindowAnchor.NorthWest => anchor_row
            | WindowAnchor.NorthEast => anchor_row
            | WindowAnchor.SouthWest => anchor_row - (vgrid.height : ℚ)
            | WindowAnchor.SouthEast => anchor_row - (vgrid.height : ℚ)) *
            m.height)).set_is_float true).set_focusable focusable)) },
    _, ?_, alookup_ainsert_self _ _ _, rfl, rfl, rfl⟩
  cases anchor <;> simp [updateWindowFloatPosition, hanchor, hgrid]

/-- Witness for C4 at the claim's concrete input: anchor grid 1 at device
(100, 50), metrics 8×16, float grid 2 of size 10×3 anchored NorthEast at
cell (20, 5) resolves to device position (180, 130). -/
theorem C4_float_position_witness :
    ∃ s' vg', updateWindowFloatPosition
        ⟨[(1, VimGrid.new 1 0 (100, 50) 80 40), (2, VimGrid.new 2 0 (0, 0) 10 3)],
         [(1, 0), (2, 0)], 1, (0, 0), none, false⟩
        2 WindowAnchor.NorthEast 1 5 20 true ⟨8, 16⟩ = some s' ∧
      alookup s'.vgrids 2 = some vg' ∧ vg'.pos = (180, 130) ∧
      vg'.is_float = true ∧ vg'.focusable = true := by
  obtain ⟨s', vg', hs, hl, hpos, hf, hfoc⟩ :=
    C4_float_position
      ⟨[(1, VimGrid.new 1 0 (100, 50) 80 40), (2, VimGrid.new 2 0 (0, 0) 10 3)],
       [(1, 0), (2, 0)], 1, (0, 0), none, false⟩
      2 WindowAnchor.NorthEast 1 5 20 true ⟨8, 16⟩
      (VimGrid.new 1 0 (100, 50) 80 40) (VimGrid.new 2 0 (0, 0) 10 3)
      (by decide) (by decide)
  refine ⟨s', vg', hs, hl, ?_, hf, hfoc⟩
  rw [hpos]
  norm_num [VimGrid.new]

/-! ## Claim C7 — Row.resize -/

/-- The ten digit cells "0123456789", style 0. -/
def digitCells : List Cell :=
  ["0", "1", "2", "3", "4", "5", "6", "7", "8", "9"].map fun t => ⟨t, 0, false⟩

theorem resizeWith_length (cs : List Cell) (n : Nat) :
    (resizeWith cs n).length = n := by
  unfold resizeWith
  by_cases h : n ≤ cs.length
  · simp [h, Nat.min_eq_left h]
  · simp [h]
    omega

/-- Claim C7: `Row.resize(new_len)` grows the row by appending default cells
(single space, style 0, not double width) or shrinks it by truncation;
every cell strictly below `min old_len new_len` is preserved unchanged; and
the length-10 row "0123456789" resized to 5 holds "01234", then resized to
15 holds "01234" followed by ten spaces. -/
theorem C7_row_resize :
    (∀ (r : Row) (new_len : Nat),
      (r.resize new_len).len = new_len ∧
      (r.resize new_len).cells.length = new_len ∧
      (∀ j, j < min r.cells.length new_len →
        (r.resize new_len).cells[j]? = r.cells[j]?) ∧
      (∀ j, r.cells.length ≤ j → j < new_len →
        (r.resize new_len).cells[j]? = some defaultCell)) ∧
    ((Row.mk digitCells 10).resize 5).cells = digitCells.take 5 ∧
    (((Row.mk digitCells 10).resize 5).resize 15).cells =
      digitCells.take 5 ++ List.replicate 10 defaultCell := by
  refine ⟨fun r new_len => ⟨?_, ?_, ?_, ?_⟩, by decide, by decide⟩
  · show (resizeWith r.cells new_len).length = new_len
    exact resizeWith_length r.cells new_len
  · exact resizeWith_length r.cells new_len
  · intro j hj
    show (resizeWith r.cells new_len)[j]? = r.cells[j]?
    unfold resizeWith
    by_cases h : new_len ≤ r.cells.length
    · rw [if_pos h, List.getElem?_take]
      rw [if_pos (lt_of_lt_of_le hj (min_le_right _ _))]
    · rw [if_neg h, List.getElem?_append]
      rw [if_pos (lt_of_lt_of_le hj (min_le_left _ _))]
  · intro j hj hjn
    show (resizeWith r.cells new_len)[j]? = some defaultCell
    unfold resizeWith
    rw [if_neg (by omega), List.getElem?_append,
      if_neg (by omega), List.getElem?_replicate, if_pos (by omega)]

/-- Witness for C7's general part at a concrete input: resizing a 2-cell row
to 4 keeps cell 1 and default-fills cell 3. -/
theorem C7_row_resize_witness :
    ((Row.new 2).resize 4).len = 4 ∧
    ((Row.new 2).resize 4).cells.length = 4 ∧
    ((Row.new 2).resize 4).cells[1]? = (Row.new 2).cells[1]? ∧
    ((Row.new 2).resize 4).cells[3]? = some defaultCell := by
  obtain ⟨h1, h2, h3, h4⟩ := C7_row_resize.1 (Row.new 2) 4
  exact ⟨h1, h2, h3 1 (by decide), h4 3 (by decide) (by decide)⟩

/-! ## Claim C8 — the `cells.len() == len` invariant -/

theorem clearLoop_length (n : Nat) :
    ∀ (cs : List Cell) (i : Nat) (cs' : List Cell),
      clearLoop cs i n = some cs' → cs'.length = cs.length := by
  induction n with
  | zero =>
    intro cs i cs' h
    injection h with h
    rw [← h]
  | succ n ih =>
    intro cs i cs' h
    unfold clearLoop at h
    by_cases hi : i < cs.length
    · rw [if_pos hi] at h
      have := ih _ _ _ h
      simpa using this
    · rw [if_neg hi] at h
      cases h

theorem insertLoop_length (items : List Cell) :
    ∀ (cs : List Cell) (i : Nat) (cs' : List Cell),
      insertLoop cs i items = some cs' → cs'.length = cs.length := by
  induction items with
  | nil =>
    intro cs i cs' h
    injection h with h
    rw [← h]
  | cons c rest ih =>
    intro cs i cs' h
    unfold insertLoop at h
    by_cases hi : i < cs.length
    · rw [if_pos hi] at h
      have := ih _ _ _ h
      simpa using this
    · rw [if_neg hi] at h
      cases h

theorem writeRepeat_length (n : Nat) :
    ∀ (cs : List Cell) (i : Nat) (c : Cell) (cs' : List Cell),
      writeRepeat cs i n c = some cs' → cs'.length = cs.length := by
  induction n with
  | zero =>
    intro cs i c cs' h
    injection h with h
    rw [← h]
  | succ n ih =>
    intro cs i c cs' h
    unfold writeRepeat at h
    by_cases hi : i < cs.length
    · rw [if_pos hi] at h
      have := ih _ _ _ _ h
      simpa using this
    · rw [if_neg hi] at h
      cases h

theorem writeCells_length (items : List GridLineCell) :
    ∀ (cs : List Cell) (off : Nat) (cs' : List Cell) (off' : Nat),
      writeCells cs off items = some (cs', off') → cs'.length = cs.length := by
  induction items with
  | nil =>
    intro cs off cs' off' h
    injection h with h
    injection h with h1 h2
    rw [← h1]
  | cons item rest ih =>
    intro cs off cs' off' h
    unfold writeCells at h
    split at h
    · cases h
    · split at h
      · cases h
      · rename_i hl hhl cs0 hwr
        have h1 := ih _ _ _ _ h
        rw [h1, writeRepeat_length _ _ _ _ _ hwr]

/-- Claim C8: every `Row` operation — `clear`, `clear_range`, `insert_at`,
`replace`, `resize` — applied with in-range arguments to a row satisfying
`cells.len() == len` yields a row satisfying `cells.len() == len` again. -/
theorem C8_row_invariant (r : Row) (hinv : r.cells.length = r.len) :
    ((r.clear).cells.length = (r.clear).len) ∧
    (∀ new_len, (r.resize new_len).cells.length = (r.resize new_len).len) ∧
    (∀ f t r', r.clear_range f t = some r' → r'.cells.length = r'.len) ∧
    (∀ a cells r', r.insert_at a cells = some r' → r'.cells.length = r'.len) ∧
    (∀ line r' segs, r.replace line = some (r', segs) →
      r'.cells.length = r'.len) := by
  refine ⟨?_, fun new_len => rfl, ?_, ?_, ?_⟩
  · simp [Row.clear, Row.empty_cells]
  · intro f t r' h
    unfold Row.clear_range at h
    cases hcl : clearLoop r.cells f (t - f) with
    | none => rw [hcl] at h; cases h
    | some cs =>
      rw [hcl] at h
      injection h with h
      rw [← h]
      show cs.length = r.len
      rw [clearLoop_length _ _ _ _ hcl, hinv]
  · intro a cells r' h
    unfold Row.insert_at at h
    cases hil : insertLoop r.cells a cells with
    | none => rw [hil] at h; cases h
    | some cs =>
      rw [hil] at h
      by_cases hlen : cs.length = r.len
      · simp only [Option.some_bind, if_pos hlen] at h
        injection h with h
        rw [← h]
        exact hlen
      · simp only [Option.some_bind, if_neg hlen] at h
        cases h
  · intro line r' segs h
    unfold Row.replace at h
    cases hsegs0 : r.to_segments line.column_start line.column_start with
    | none => rw [hsegs0] at h; cases h
    | some segs0 =>
      rw [hsegs0] at h
      cases hwc : writeCells r.cells line.column_start line.cells with
      | none => rw [hwc] at h; cases h
      | some p =>
        obtain ⟨cells', offset⟩ := p
        rw [hwc] at h
        by_cases hlen : cells'.length = r.len
        · simp only [if_pos hlen] at h
          cases hfin : Row.to_segments ⟨cells', r.len⟩
              (match segs0.head? with | some seg => seg.start | none => 0)
              offset with
          | none => rw [hfin] at h; cases h
          | some segsf =>
            rw [hfin] at h
            injection h with h
            injection h with h1 h2
            rw [← h1]
            exact hlen
        · simp only [if_neg hlen] at h
          cases h

/-- Witness for C8 at concrete inputs: each operation applied to a concrete
3-cell row lands in a row whose cell count equals its `len` field. -/
theorem C8_row_invariant_witness :
    ((Row.new 3).clear).cells.length = ((Row.new 3).clear).len ∧
    ((Row.new 3).resize 5).cells.length = ((Row.new 3).resize 5).len ∧
    (∃ r', (Row.new 3).clear_range 1 3 = some r' ∧
      r'.cells.length = r'.len) ∧
    (∃ r', (Row.new 3).insert_at 1 [⟨"x", 1, false⟩] = some r' ∧
      r'.cells.length = r'.len) ∧
    (∃ r' segs, (Row.new 3).replace ⟨0, 0, 1, [⟨"x", some 1, some 2, false⟩]⟩ =
        some (r', segs) ∧
      r'.cells.length = r'.len) := by
  have H := C8_row_invariant (Row.new 3) (by decide)
  refine ⟨H.1, H.2.1 5, ?_, ?_, ?_⟩
  · cases hcr : (Row.new 3).clear_range 1 3 with
    | none => exact absurd hcr (by decide)
    | some r' => exact ⟨r', rfl, H.2.2.1 1 3 r' hcr⟩
  · cases hia : (Row.new 3).insert_at 1 [⟨"x", 1, false⟩] with
    | none => exact absurd hia (by decide)
    | some r' => exact ⟨r', rfl, H.2.2.2.1 1 [⟨"x", 1, false⟩] r' hia⟩
  · cases hrp : (Row.new 3).replace ⟨0, 0, 1, [⟨"x", some 1, some 2, false⟩]⟩ with
    | none => exact absurd hrp (by decide)
    | some p =>
      obtain ⟨r', segs⟩ := p
      exact ⟨r', segs, rfl,
        H.2.2.2.2 ⟨0, 0, 1, [⟨"x", some 1, some 2, false⟩]⟩ r' segs hrp⟩

/-! ## Claim C1 — backward extension of `to_segments` -/

theorem findLastDiff_none (cs : List Cell) (h : Nat)
    (hf : findLastDiff cs h = none) :
    ∀ (j : Nat) (c : Cell), cs[j]? = some c → c.hl_id = h := by
  induction cs with
  | nil =>
    intro j c hc
    cases hc
  | cons c0 rest ih =>
    intro j c hc
    unfold findLastDiff at hf
    cases hrest : findLastDiff rest h with
    | some i =>
      rw [hrest] at hf
      cases hf
    | none =>
      rw [hrest] at hf
      by_cases hh : c0.hl_id ≠ h
      · rw [if_pos hh] at hf
        cases hf
      · push_neg at hh
        cases j with
        | zero =>
          rw [List.getElem?_cons_zero] at hc
          injection hc with hc
          rw [← hc]
          exact hh
        | succ j =>
          rw [List.getElem?_cons_succ] at hc
          exact ih hrest j c hc

theorem findLastDiff_some (cs : List Cell) (h : Nat) :
    ∀ i, findLastDiff cs h = some i →
      i < cs.length ∧ (∃ c, cs[i]? = some c ∧ c.hl_id ≠ h) ∧
        (∀ (j : Nat) (c : Cell), i < j → cs[j]? = some c → c.hl_id = h) := by
  induction cs with
  | nil =>
    intro i hf
    cases hf
  | cons c0 rest ih =>
    intro i hf
    unfold findLastDiff at hf
    cases hrest : findLastDiff rest h with
    | some i0 =>
      rw [hrest] at hf
      injection hf with hf
      subst hf
      obtain ⟨hlen, ⟨cd, hcd, hneq⟩, hall⟩ := ih i0 hrest
      refine ⟨by simpa using Nat.succ_lt_succ hlen,
        ⟨cd, by simpa using hcd, hneq⟩, ?_⟩
      intro j c hj hc
      cases j with
      | zero => omega
      | succ j =>
        rw [List.getElem?_cons_succ] at hc
        exact hall j c (by omega) hc
    | none =>
      rw [hrest] at hf
      by_cases hh : c0.hl_id ≠ h
      · rw [if_pos hh] at hf
        injection hf with hf
        subst hf
        refine ⟨by simp, ⟨c0, by simp, hh⟩, ?_⟩
        intro j c hj hc
        cases j with
        | zero => omega
        | succ j =>
          rw [List.getElem?_cons_succ] at hc
          exact findLastDiff_none rest h hrest j c hc
      · rw [if_neg hh] at hf
        cases hf

/-- The `base` index of `to_segments` is at most `cell_start`, every cell
between it and `cell_start` carries the style of the cell at `cell_start`,
and it is either 0 or preceded by a cell of a different style. -/
theorem baseIdx_spec (cs : List Cell) (cell_start : Nat) (c0 : Cell)
    (hc0 : cs[cell_start]? = some c0) :
    baseIdx cs cell_start c0.hl_id ≤ cell_start ∧
    (∀ (j : Nat) (c : Cell), baseIdx cs cell_start c0.hl_id ≤ j →
      j ≤ cell_start → cs[j]? = some c → c.hl_id = c0.hl_id) ∧
    (baseIdx cs cell_start c0.hl_id = 0 ∨
      ∃ cp, cs[baseIdx cs cell_start c0.hl_id - 1]? = some cp ∧
        cp.hl_id ≠ c0.hl_id) := by
  have hlt : cell_start < cs.length := by
    by_contra hge
    rw [List.getElem?_eq_none (by omega)] at hc0
    cases hc0
  have htake : (cs.take cell_start).length = cell_start := by
    simp
    omega
  cases hfld : findLastDiff (cs.take cell_start) c0.hl_id with
  | none =>
    have hb : baseIdx cs cell_start c0.hl_id = 0 := by
      unfold baseIdx
      rw [hfld]
    rw [hb]
    refine ⟨Nat.zero_le _, ?_, Or.inl rfl⟩
    intro j c hbj hjs hc
    by_cases hje : j = cell_start
    · subst hje
      rw [hc0] at hc
      injection hc with hc
      rw [← hc]
    · have hjlt : j < cell_start := by omega
      exact findLastDiff_none _ _ hfld j c
        (by rw [List.getElem?_take, if_pos hjlt]; exact hc)
  | some i =>
    have hb : baseIdx cs cell_start c0.hl_id = i + 1 := by
      unfold baseIdx
      rw [hfld]
    obtain ⟨hilen, ⟨cd, hcd, hneq⟩, hall⟩ := findLastDiff_some _ _ i hfld
    rw [htake] at hilen
    rw [hb]
    refine ⟨by omega, ?_, Or.inr ⟨cd, ?_, hneq⟩⟩
    · intro j c hbj hjs hc
      by_cases hje : j = cell_start
      · subst hje
        rw [hc0] at hc
        injection hc with hc
        rw [← hc]
      · have hjlt : j < cell_start := by omega
        exact hall j c (by omega)
          (by rw [List.getElem?_take, if_pos hjlt]; exact hc)
    · simp only [Nat.add_sub_cancel]
      rw [List.getElem?_take, if_pos hilen] at hcd
      exact hcd

/-- `pushCell` never touches the start of the first segment of a nonempty
accumulator. -/
theorem pushCell_head (s0 : Segment) (ss : List Segment) (c : Cell) (i : Nat) :
    ∃ t0 ts, pushCell (s0 :: ss) c i = t0 :: ts ∧ t0.start = s0.start := by
  cases ss with
  | nil =>
    by_cases hh : s0.hl_id = c.hl_id
    · exact ⟨⟨s0.text ++ c.text, s0.hl_id, s0.start, s0.len + 1⟩, [],
        by simp [pushCell, hh], rfl⟩
    · exact ⟨s0, [⟨c.text, c.hl_id, i, 1⟩], by simp [pushCell, hh], rfl⟩
  | cons y ys =>
    cases hlast : (s0 :: y :: ys).getLast? with
    | none => simp at hlast
    | some z =>
      by_cases hh : z.hl_id = c.hl_id
      · exact ⟨s0, (y :: ys).dropLast ++
          [⟨z.text ++ c.text, z.hl_id, z.start, z.len + 1⟩],
          by simp [pushCell, hlast, hh], rfl⟩
      · exact ⟨s0, y :: ys ++ [⟨c.text, c.hl_id, i, 1⟩],
          by simp [pushCell, hlast, hh], rfl⟩

/-- The forward scan of `to_segments` never changes the start of the first
accumulated segment. -/
theorem segLoop_head (cs : List Cell) :
    ∀ (i e : Nat) (s0 : Segment) (ss : List Segment),
      ∃ t0 ts, segLoop cs i e (s0 :: ss) = t0 :: ts ∧ t0.start = s0.start := by
  induction cs with
  | nil =>
    intro i e s0 ss
    exact ⟨s0, ss, rfl, rfl⟩
  | cons c rest ih =>
    intro i e s0 ss
    unfold segLoop
    by_cases hie : i > e
    · rw [if_pos hie]
      exact ⟨s0, ss, rfl, rfl⟩
    · rw [if_neg hie]
      obtain ⟨t0, ts, hp, hs⟩ := pushCell_head s0 ss c i
      rw [hp]
      obtain ⟨u0, us, hl2, hs2⟩ := ih (i + 1) e t0 ts
      exact ⟨u0, us, hl2, by rw [hs2, hs]⟩

/-- Starting the forward scan on a nonempty cell list with an empty
accumulator and `i ≤ e` yields a first segment starting exactly at `i`. -/
theorem segLoop_start (cs : List Cell) (i e : Nat) (hne : cs ≠ [])
    (hie : ¬ i > e) :
    ∃ t0 ts, segLoop cs i e [] = t0 :: ts ∧ t0.start = i := by
  cases cs with
  | nil => exact absurd rfl hne
  | cons c rest =>
    unfold segLoop
    rw [if_neg hie]
    obtain ⟨t0, ts, hp, hs⟩ := segLoop_head rest (i + 1) e ⟨c.text, c.hl_id, i, 1⟩ []
    refine ⟨t0, ts, ?_, by rw [hs]⟩
    rw [show pushCell [] c i = [⟨c.text, c.hl_id, i, 1⟩] from rfl]
    exact hp

/-- The "  ===" row of claim C1's concrete example: indices 0–1 style 0,
indices 2–4 style 1. -/
def rowEq : Row :=
  ⟨[⟨" ", 0, false⟩, ⟨" ", 0, false⟩, ⟨"=", 1, false⟩, ⟨"=", 1, false⟩,
    ⟨"=", 1, false⟩], 5⟩

/-- Claim C1: for every `to_segments(start, end)` call (`start` in range,
`start ≤ end`), the returned run is extended backward from `start` to the
first cell whose style id differs from the cell at `start`: the first
returned segment starts at an index `≤ start` such that all cells from
there through `start` share the style of the cell at `start`, and that
index is 0 or its predecessor cell has a different style.  In particular,
on the 5-cell row "  ===" (styles 0,0,1,1,1), writing one cell of style 2
at index 4 returns exactly `[{text:"==", style:1, start:2, len:2},
{text:" ", style:2, start:4, len:1}]`. -/
theorem C1_to_segments_backward :
    (∀ (r : Row) (start e : Nat), start < r.cells.length → start ≤ e →
      ∃ c0 seg rest, r.cells[start]? = some c0 ∧
        r.to_segments start e = some (seg :: rest) ∧
        seg.start ≤ start ∧
        (∀ (j : Nat) (c : Cell), seg.start ≤ j → j ≤ start →
          r.cells[j]? = some c → c.hl_id = c0.hl_id) ∧
        (seg.start = 0 ∨ ∃ cp, r.cells[seg.start - 1]? = some cp ∧
          cp.hl_id ≠ c0.hl_id)) ∧
    rowEq.replace ⟨0, 0, 4, [⟨" ", some 2, some 1, false⟩]⟩ =
      some (⟨[⟨" ", 0, false⟩, ⟨" ", 0, false⟩, ⟨"=", 1, false⟩, ⟨"=", 1, false⟩,
        ⟨" ", 2, false⟩], 5⟩, [⟨"==", 1, 2, 2⟩, ⟨" ", 2, 4, 1⟩]) := by
  refine ⟨?_, by decide⟩
  intro r start e h1 h2
  cases hc0 : r.cells[start]? with
  | none =>
    rw [List.getElem?_eq_none_iff] at hc0
    omega
  | some c0 =>
    obtain ⟨hble, hallb, hprev⟩ := baseIdx_spec r.cells start c0 hc0
    have hblt : baseIdx r.cells start c0.hl_id < r.cells.length := by omega
    have hne : r.cells.drop (baseIdx r.cells start c0.hl_id) ≠ [] := by
      apply List.ne_nil_of_length_pos
      simp
      omega
    obtain ⟨t0, ts, hseg, hstart⟩ :=
      segLoop_start (r.cells.drop (baseIdx r.cells start c0.hl_id))
        (baseIdx r.cells start c0.hl_id) e hne (by omega)
    refine ⟨c0, t0, ts, rfl, ?_, ?_, ?_, ?_⟩
    · simp only [Row.to_segments, hc0]
      rw [hseg]
    · rw [hstart]
      exact hble
    · intro j c hj hjs hc
      rw [hstart] at hj
      exact hallb j c hj hjs hc
    · rw [hstart]
      exact hprev

/-- Witness for C1's general part at a concrete input: on the "  ===" row,
`to_segments(4, 4)` returns a first segment that reaches back to index 2. -/
theorem C1_to_segments_backward_witness :
    ∃ c0 seg rest, rowEq.cells[4]? = some c0 ∧
      rowEq.to_segments 4 4 = some (seg :: rest) ∧ seg.start ≤ 4 := by
  obtain ⟨c0, seg, rest, hc, hs, hle, _, _⟩ :=
    C1_to_segments_backward.1 rowEq 4 4 (by decide) (by decide)
  exact ⟨c0, seg, rest, hc, hs, hle⟩

/-! ## Claim C2 — Row.replace run-length write -/

/-- The run-length expansion of a `grid_line` item list: each item repeated
`repeat` (default 1) times in order; `none` when an item lacks a highlight
id (which `Row::replace` unwraps).  This is the claim-side description of
the write loop, to be proved equivalent to it. -/
def expandItems : List GridLineCell → Option (List Cell)
  | [] => some []
  | item :: rest =>
    match item.highlight_id with
    | none => none
    | some hl =>
      (expandItems rest).map
        (fun tail =>
          List.replicate (item.repeat_count.getD 1) (cellOfItem item hl) ++ tail)

theorem writeRepeat_spec (n : Nat) :
    ∀ (cs : List Cell) (i : Nat) (c : Cell) (cs' : List Cell),
      writeRepeat cs i n c = some cs' →
      cs'.length = cs.length ∧
      (∀ (j : Nat), j < i → cs'[j]? = cs[j]?) ∧
      (∀ (j : Nat), i ≤ j → j < i + n → cs'[j]? = some c) ∧
      (∀ (j : Nat), i + n ≤ j → cs'[j]? = cs[j]?) := by
  induction n with
  | zero =>
    intro cs i c cs' h
    injection h with h
    subst h
    exact ⟨rfl, fun j _ => rfl, fun j h1 h2 => by omega, fun j _ => rfl⟩
  | succ n ih =>
    intro cs i c cs' h
    unfold writeRepeat at h
    by_cases hi : i < cs.length
    · rw [if_pos hi] at h
      obtain ⟨hlen, hlo, hmid, hhi⟩ := ih (cs.set i c) (i + 1) c cs' h
      rw [List.length_set] at hlen
      refine ⟨hlen, ?_, ?_, ?_⟩
      · intro j hj
        rw [hlo j (by omega), List.getElem?_set_ne (by omega)]
      · intro j hj1 hj2
        by_cases hje : j = i
        · subst hje
          rw [hlo j (by omega), List.getElem?_set_self hi]
        · exact hmid j (by omega) (by omega)
      · intro j hj
        rw [hhi j (by omega), List.getElem?_set_ne (by omega)]
    · rw [if_neg hi] at h
      cases h

/-- The write loop of `Row::replace` overwrites exactly the cell range
`[off, off + (expansion).length)` with the run-length expansion of the item
list, returning the final cursor `off + (expansion).length`. -/
theorem writeCells_spec (items : List GridLineCell) :
    ∀ (cs : List Cell) (off : Nat) (cs' : List Cell) (off' : Nat),
      writeCells cs off items = some (cs', off') →
      ∃ flat, expandItems items = some flat ∧
        off' = off + flat.length ∧
        cs'.length = cs.length ∧
        (∀ (j : Nat), j < off → cs'[j]? = cs[j]?) ∧
        (∀ (j : Nat), off ≤ j → j < off' → cs'[j]? = flat[j - off]?) ∧
        (∀ (j : Nat), off' ≤ j → cs'[j]? = cs[j]?) := by
  induction items with
  | nil =>
    intro cs off cs' off' h
    injection h with h
    injection h with h1 h2
    subst h1
    subst h2
    exact ⟨[], rfl, by simp, rfl, fun j _ => rfl, fun j h1 h2 => by omega,
      fun j _ => rfl⟩
  | cons item rest ih =>
    intro cs off cs' off' h
    unfold writeCells at h
    split at h
    · cases h
    · rename_i hl hhl
      split at h
      · cases h
      · rename_i cs0 hwr
        obtain ⟨flatR, hexpR, hoff, hlenR, hloR, hmidR, hhiR⟩ := ih _ _ _ _ h
        obtain ⟨hlenW, hloW, hmidW, hhiW⟩ := writeRepeat_spec _ _ _ _ _ hwr
        refine ⟨List.replicate (item.repeat_count.getD 1) (cellOfItem item hl)
          ++ flatR, ?_, ?_, ?_, ?_, ?_, ?_⟩
        · simp [expandItems, hhl, hexpR]
        · rw [hoff]
          simp only [List.length_append, List.length_replicate]
          omega
        · rw [hlenR, hlenW]
        · intro j hj
          rw [hloR j (by omega), hloW j hj]
        · intro j hj1 hj2
          by_cases hjr : j < off + item.repeat_count.getD 1
          · rw [hloR j hjr, hmidW j hj1 hjr, List.getElem?_append,
              if_pos (by rw [List.length_replicate]; omega),
              List.getElem?_replicate, if_pos (by omega)]
          · push_neg at hjr
            rw [hmidR j hjr (by omega), List.getElem?_append,
              if_neg (by rw [List.length_replicate]; omega),
              List.length_replicate, Nat.sub_sub]
        · intro j hj
          rw [hhiR j (by omega), hhiW j (by omega)]

/-- Claim C2: each `grid_line` item writes `repeat` (default 1) identical
cells at a write cursor that begins at `col_start` and advances by `repeat`
after each item — equivalently, a successful `Row.replace` overwrites
exactly the cells `[col_start, col_start + total)` with the run-length
expansion of the item list and leaves every other cell unchanged.  In
particular, writing the single item (text:"a", style:1, repeat:3) at
col_start 2 into a 10-wide default row yields cells "  aaa     " with
styles 0,0,1,1,1,0,0,0,0,0. -/
theorem C2_row_replace_write :
    (∀ (r : Row) (line : Line) (r' : Row) (segs : List Segment),
      r.replace line = some (r', segs) →
      ∃ flat, expandItems line.cells = some flat ∧
        r'.len = r.len ∧ r'.cells.length = r.cells.length ∧
        (∀ (j : Nat), j < line.column_start → r'.cells[j]? = r.cells[j]?) ∧
        (∀ (j : Nat), line.column_start ≤ j →
          j < line.column_start + flat.length →
          r'.cells[j]? = flat[j - line.column_start]?) ∧
        (∀ (j : Nat), line.column_start + flat.length ≤ j →
          r'.cells[j]? = r.cells[j]?)) ∧
    (Row.new 10).replace ⟨0, 0, 2, [⟨"a", some 1, some 3, false⟩]⟩ =
      some (⟨[defaultCell, defaultCell, ⟨"a", 1, false⟩, ⟨"a", 1, false⟩,
        ⟨"a", 1, false⟩, defaultCell, defaultCell, defaultCell, defaultCell,
        defaultCell], 10⟩,
        [⟨"  ", 0, 0, 2⟩, ⟨"aaa", 1, 2, 3⟩, ⟨" ", 0, 5, 1⟩]) := by
  refine ⟨?_, by decide⟩
  intro r line r' segs h
  unfold Row.replace at h
  cases hsegs0 : r.to_segments line.column_start line.column_start with
  | none => rw [hsegs0] at h; cases h
  | some segs0 =>
    rw [hsegs0] at h
    cases hwc : writeCells r.cells line.column_start line.cells with
    | none => rw [hwc] at h; cases h
    | some p =>
      obtain ⟨cells', offset⟩ := p
      rw [hwc] at h
      by_cases hlen : cells'.length = r.len
      · simp only [if_pos hlen] at h
        cases hfin : Row.to_segments ⟨cells', r.len⟩
            (match segs0.head? with | some seg => seg.start | none => 0)
            offset with
        | none => rw [hfin] at h; cases h
        | some segsf =>
          rw [hfin] at h
          injection h with h
          injection h with h1 h2
          obtain ⟨flat, hexp, hoff, hclen, hlo, hmid, hhi⟩ :=
            writeCells_spec _ _ _ _ _ hwc
          refine ⟨flat, hexp, ?_, ?_, ?_, ?_, ?_⟩
          · rw [← h1]
          · rw [← h1]
            exact hclen
          · intro j hj
            rw [← h1]
            exact hlo j hj
          · intro j hj1 hj2
            rw [← h1]
            exact hmid j hj1 (by omega)
          · intro j hj
            rw [← h1]
            exact hhi j (by omega)
      · simp only [if_neg hlen] at h
        cases h

/-- Witness for C2's general part at a concrete input: replacing at
col_start 1 with one item ("x", style 2, repeat 2) in a default 4-cell row
rewrites exactly cells 1 and 2 with the expansion and keeps cells 0 and 3. -/
theorem C2_row_replace_write_witness :
    ∃ flat, expandItems [⟨"x", some 2, some 2, false⟩] = some flat ∧
      ∃ r' segs, (Row.new 4).replace ⟨0, 0, 1, [⟨"x", some 2, some 2, false⟩]⟩ =
        some (r', segs) ∧
        r'.cells[0]? = (Row.new 4).cells[0]? ∧
        r'.cells[1]? = flat[0]? ∧
        r'.cells[2]? = flat[1]? ∧
        r'.cells[3]? = (Row.new 4).cells[3]? := by
  cases hrp : (Row.new 4).replace ⟨0, 0, 1, [⟨"x", some 2, some 2, false⟩]⟩ with
  | none => exact absurd hrp (by decide)
  | some p =>
    obtain ⟨r', segs⟩ := p
    obtain ⟨flat, hexp, _, _, hlo, hmid, hhi⟩ :=
      C2_row_replace_write.1 (Row.new 4)
        ⟨0, 0, 1, [⟨"x", some 2, some 2, false⟩]⟩ r' segs hrp
    have hfl : flat.length = 2 := by
      have h2 := hexp
      rw [show expandItems [⟨"x", some 2, some 2, false⟩] =
        some [⟨"x", 2, false⟩, ⟨"x", 2, false⟩] from rfl] at h2
      injection h2 with h2
      rw [← h2]
      rfl
    have hcs : (⟨0, 0, 1, [⟨"x", some 2, some 2, false⟩]⟩ : Line).column_start = 1 :=
      rfl
    refine ⟨flat, hexp, r', segs, rfl, hlo 0 (by omega), ?_, ?_,
      hhi 3 (by omega)⟩
    · have hm := hmid 1 (by omega) (by omega)
      simpa using hm
    · have hm := hmid 2 (by omega) (by omega)
      simpa using hm

end Reovim
